import Mathlib

/-!
Verification of the OpenCL caching allocators in
`onnxruntime/core/providers/opencl/opencl_allocator.cc`.

The file shallowly embeds the two allocator classes,
`OpenCLBufferAllocator` and `OpenCLImage2DAllocator`, as explicit state
transformers.  Native OpenCL handles (`cl_mem` pointers) are modelled as
natural numbers handed out by a fresh-handle counter that stands for
`clCreateBuffer` / `clCreateImage`: each successful native creation call
returns a handle never returned before, which matches the fact that a
live OpenCL memory object has an address distinct from every other live
object.  Every native call made by the allocator is recorded in an event
trace so that "no native call happens here" claims are expressible.

The C++ cache tables are `std::map<Key, std::list<void*>>`.  The code
treats an absent key and a present key with an empty list identically
(the miss condition is `it == cache_.end() || it->second.empty()`, and
`Free` inserts an empty list before pushing), so the cache is embedded
extensionally as a total function from keys to lists, with the absent
key denoting the empty list.

The metadata table `meta_` is embedded as an association list because
the destructor iterates over its entries.  `meta_[p]` in `Free` is
`std::map::operator[]`, which default-inserts a value-initialised record
when the key is absent; the embedding reproduces that behaviour.
-/

set_option autoImplicit false

namespace OpenCLAlloc

/-- Association-list lookup with `Nat` keys, embedding `std::map::find`
on the metadata table (first matching key wins; keys are unique in every
state we build). -/
def lookupA {α : Type} : List (Nat × α) → Nat → Option α
  | [], _ => none
  | e :: rest, h => if h = e.1 then some e.2 else lookupA rest h

/-- Insert-or-assign with `Nat` keys, embedding `meta_[ptr] = {v}`. -/
def metaSet {α : Type} (m : List (Nat × α)) (h : Nat) (v : α) : List (Nat × α) :=
  if (lookupA m h).isSome then
    m.map (fun e => if e.1 = h then (e.1, v) else e)
  else
    m ++ [(h, v)]

/-- `CL_MEM_READ_WRITE` flag value. -/
def CL_MEM_READ_WRITE : Nat := 1

/-- `CL_HALF_FLOAT` channel data type value. -/
def CL_HALF_FLOAT : Nat := 0x10DD

/-- `CL_FLOAT` channel data type value. -/
def CL_FLOAT : Nat := 0x10DE

/-- `CL_RGBA` channel order value. -/
def CL_RGBA : Nat := 0x10B5

/-- `CL_MEM_OBJECT_IMAGE2D` image type value. -/
def CL_MEM_OBJECT_IMAGE2D : Nat := 0x10F1

/-! ### Buffer allocator (`OpenCLBufferAllocator`) -/

/-- A native OpenCL call made by the buffer allocator: either
`clCreateBuffer(ctx, flags, size, host_ptr, &err)` (the context is
fixed per instance and therefore omitted) or
`clReleaseMemObject(handle)`. -/
inductive BufEvent : Type
  | create (flags : Nat) (size : Nat) (hostPtr : Option Nat)
  | release (handle : Nat)
deriving DecidableEq

/-- State of one `OpenCLBufferAllocator` instance.

`meta` is `meta_` (handle to recorded byte size), `cache` is `cache_`
(byte size to free list, absent key = empty list), `next` is the
fresh-handle counter standing in for the native allocator, and `events`
is the trace of native calls issued so far.  `inUse` is ghost
instrumentation, not present in the source: it records the handles
returned by `Alloc` and not yet passed to `Free`, and is used only to
state well-formed usage and the invariants. -/
structure BufferState : Type where
  meta : List (Nat × Nat)
  cache : Nat → List Nat
  next : Nat
  events : List BufEvent
  inUse : List Nat

/-- A freshly constructed `OpenCLBufferAllocator`: empty tables, no
native call made yet. -/
def emptyBufState : BufferState :=
  { meta := [], cache := fun _ => [], next := 0, events := [], inUse := [] }

/-- `OpenCLBufferAllocator::Alloc(size)`: if the free list for `size` is
absent or empty, call `clCreateBuffer(ctx_, CL_MEM_READ_WRITE, size,
nullptr, &err)` and record `meta_[ptr] = {size}`; otherwise pop and
return the front of the free list. -/
def allocBuf (s : BufferState) (size : Nat) : Nat × BufferState :=
  if s.cache size = [] then
    (s.next,
      { meta := metaSet s.meta s.next size
        cache := s.cache
        next := s.next + 1
        events := s.events ++ [BufEvent.create CL_MEM_READ_WRITE size none]
        inUse := s.inUse ++ [s.next] })
  else
    ((s.cache size).headD 0,
      { s with
          cache := fun k => if k = size then (s.cache k).tail else s.cache k
          inUse := s.inUse ++ [(s.cache size).headD 0] })

/-- `OpenCLBufferAllocator::Free(p)`: `auto meta = meta_[p]` (which
default-inserts `{size = 0}` when `p` has no record), then push `p`
onto the front of the free list for `meta.size`, creating the list if
absent.  No native call is made. -/
def freeBuf (s : BufferState) (p : Nat) : BufferState :=
  let sz := (lookupA s.meta p).getD 0
  { s with
      meta := if (lookupA s.meta p).isSome then s.meta else s.meta ++ [(p, 0)]
      cache := fun k => if k = sz then p :: s.cache k else s.cache k
      inUse := s.inUse.erase p }

/-- `OpenCLBufferAllocator::~OpenCLBufferAllocator()`: the sequence of
`clReleaseMemObject` calls issued at destruction, one per entry of
`meta_`. -/
def destructBuf (s : BufferState) : List BufEvent :=
  s.meta.map (fun e => BufEvent.release e.1)

/-- States reachable from a fresh buffer allocator by well-formed usage:
any `Alloc`, and `Free` only on a handle currently held by the caller
(the ownership contract of the spec). -/
inductive BufReachable : BufferState → Prop
  | init : BufReachable emptyBufState
  | alloc (s : BufferState) (sz : Nat) :
      BufReachable s → BufReachable (allocBuf s sz).2
  | free (s : BufferState) (p : Nat) :
      BufReachable s → p ∈ s.inUse → BufReachable (freeBuf s p)

/-! ### Image2D allocator (`OpenCLImage2DAllocator`) -/

/-- Modelled from the spec: the key type `Image2DDesc` is declared in
`opencl_utils.h`, which is not part of the sources; the spec describes
the allocation key as a `{width, height}` descriptor (the channel
format being fixed per allocator instance), with signed 64-bit
`Width()`/`Height()` accessors and unsigned `UWidth()`/`UHeight()`
casts.  Width and height are embedded as unbounded integers. -/
structure Image2DDesc : Type where
  width : Int
  height : Int
deriving DecidableEq

/-- The `cl_image_format` argument of `clCreateImage`. -/
structure ImageFormat : Type where
  channelDataType : Nat
  channelOrder : Nat
deriving DecidableEq

/-- The `cl_image_desc` argument of `clCreateImage` (pointer fields as
`Option Nat`, `none` standing for `nullptr`). -/
structure CLImageDesc : Type where
  imageType : Nat
  imageWidth : Nat
  imageHeight : Nat
  imageDepth : Nat
  arraySize : Nat
  rowPitch : Nat
  slicePitch : Nat
  mipLevels : Nat
  numSamples : Nat
  buffer : Option Nat
deriving DecidableEq

/-- A native OpenCL call made by the image allocator: either
`clCreateImage(ctx, flags, &format, &desc, host_ptr, &err)` or
`clReleaseMemObject(handle)`. -/
inductive ImgEvent : Type
  | create (flags : Nat) (format : ImageFormat) (desc : CLImageDesc) (hostPtr : Option Nat)
  | release (handle : Nat)
deriving DecidableEq

/-- State of one `OpenCLImage2DAllocator` instance.  `useFp16`,
`maxWidth` and `maxHeight` are the constructor-time configuration
(`use_fp16_` and `image_max_wh`); the remaining fields are as in
`BufferState`, with descriptors as cache keys. -/
structure ImageState : Type where
  meta : List (Nat × Image2DDesc)
  cache : Image2DDesc → List Nat
  next : Nat
  events : List ImgEvent
  inUse : List Nat
  useFp16 : Bool
  maxWidth : Nat
  maxHeight : Nat

/-- A freshly constructed `OpenCLImage2DAllocator(ctx, use_fp16,
device_image_wh_limit)`. -/
def emptyImageState (fp16 : Bool) (maxW maxH : Nat) : ImageState :=
  { meta := [], cache := fun _ => [], next := 0, events := [], inUse := []
    useFp16 := fp16, maxWidth := maxW, maxHeight := maxH }

/-- Result of `OpenCLImage2DAllocator::Alloc(const Image2DDesc&)`:
`err` is the `ORT_ENFORCE` failure message if the call threw (in which
case no handle is returned and the state is unchanged), otherwise
`handle` is the returned pointer. -/
structure ImgResult : Type where
  err : Option String
  handle : Option Nat
  state : ImageState

/-- `OpenCLImage2DAllocator::Alloc(const Image2DDesc& desc)`: on a miss
(absent or empty free list), enforce `0 < Height() <= image_max_wh[1]`
then `0 < Width() <= image_max_wh[0]`, build the RGBA
half-float/full-float image format and the 2-D image descriptor with
all unused fields zeroed, and call `clCreateImage` with read-write
access; on a hit, pop and return the front of the free list. -/
def allocImage (s : ImageState) (d : Image2DDesc) : ImgResult :=
  if s.cache d = [] then
    if ¬ (0 < d.height ∧ d.height ≤ (s.maxHeight : Int)) then
      { err := some "Image2D height invalid", handle := none, state := s }
    else if ¬ (0 < d.width ∧ d.width ≤ (s.maxWidth : Int)) then
      { err := some "Image2D width invalid", handle := none, state := s }
    else
      { err := none
        handle := some s.next
        state :=
          { s with
              meta := metaSet s.meta s.next d
              next := s.next + 1
              events := s.events ++
                [ImgEvent.create CL_MEM_READ_WRITE
                  { channelDataType := if s.useFp16 then CL_HALF_FLOAT else CL_FLOAT
                    channelOrder := CL_RGBA }
                  { imageType := CL_MEM_OBJECT_IMAGE2D
                    imageWidth := d.width.toNat
                    imageHeight := d.height.toNat
                    imageDepth := 0
                    arraySize := 0
                    rowPitch := 0
                    slicePitch := 0
                    mipLevels := 0
                    numSamples := 0
                    buffer := none }
                  none]
              inUse := s.inUse ++ [s.next] } }
  else
    { err := none
      handle := some ((s.cache d).headD 0)
      state :=
        { s with
            cache := fun k => if k = d then (s.cache k).tail else s.cache k
            inUse := s.inUse ++ [(s.cache d).headD 0] } }

/-- `OpenCLImage2DAllocator::Alloc(size_t)`: `return nullptr` — the
size-only entry point is not supported, no native call, no state
change. -/
def allocImageSize (s : ImageState) (_ : Nat) : Option Nat × ImageState :=
  (none, s)

/-- `OpenCLImage2DAllocator::Free(p)`: `auto meta = meta_[p]` (which
default-inserts a value-initialised descriptor `{0, 0}` when `p` has no
record), then push `p` onto the front of the free list for
`meta.desc`.  No native call is made. -/
def freeImage (s : ImageState) (p : Nat) : ImageState :=
  let d := (lookupA s.meta p).getD { width := 0, height := 0 }
  { s with
      meta := if (lookupA s.meta p).isSome then s.meta
              else s.meta ++ [(p, { width := 0, height := 0 })]
      cache := fun k => if k = d then p :: s.cache k else s.cache k
      inUse := s.inUse.erase p }

/-- `OpenCLImage2DAllocator::~OpenCLImage2DAllocator()`: the sequence
of `clReleaseMemObject` calls issued at destruction, one per entry of
`meta_`. -/
def destructImage (s : ImageState) : List ImgEvent :=
  s.meta.map (fun e => ImgEvent.release e.1)

/-- States reachable from a fresh image allocator by well-formed usage. -/
inductive ImgReachable : ImageState → Prop
  | init (fp16 : Bool) (maxW maxH : Nat) :
      ImgReachable (emptyImageState fp16 maxW maxH)
  | alloc (s : ImageState) (d : Image2DDesc) :
      ImgReachable s → ImgReachable (allocImage s d).state
  | free (s : ImageState) (p : Nat) :
      ImgReachable s → p ∈ s.inUse → ImgReachable (freeImage s p)

/-! ### Lookup and metadata lemmas -/

@[simp]
theorem lookupA_nil {α : Type} (h : Nat) : lookupA ([] : List (Nat × α)) h = none := rfl

@[simp]
theorem lookupA_cons {α : Type} (e : Nat × α) (rest : List (Nat × α)) (h : Nat) :
    lookupA (e :: rest) h = if h = e.1 then some e.2 else lookupA rest h := rfl

theorem lookupA_isSome_iff {α : Type} (m : List (Nat × α)) (h : Nat) :
    (lookupA m h).isSome ↔ h ∈ m.map Prod.fst := by
  induction m with
  | nil => simp
  | cons e rest ih =>
    by_cases he : h = e.1 <;> simp [he, ih]

theorem lookupA_eq_none_iff {α : Type} (m : List (Nat × α)) (h : Nat) :
    lookupA m h = none ↔ h ∉ m.map Prod.fst := by
  rw [← lookupA_isSome_iff, Option.isSome_iff_ne_none]
  tauto

theorem lookupA_append {α : Type} (m m' : List (Nat × α)) (h : Nat) :
    lookupA (m ++ m') h =
      match lookupA m h with
      | some v => some v
      | none => lookupA m' h := by
  induction m with
  | nil => simp
  | cons e rest ih =>
    by_cases he : h = e.1 <;> simp [he, ih]

theorem mem_of_lookupA_eq_some {α : Type} {m : List (Nat × α)} {h : Nat} {v : α}
    (hl : lookupA m h = some v) : (h, v) ∈ m := by
  induction m with
  | nil => simp at hl
  | cons e rest ih =>
    by_cases he : h = e.1
    · simp [he] at hl
      subst he
      simp [← hl]
    · simp [he] at hl
      exact List.mem_cons_of_mem _ (ih hl)

theorem metaSet_of_lookupA_eq_none {α : Type} {m : List (Nat × α)} {h : Nat} (v : α)
    (hl : lookupA m h = none) : metaSet m h v = m ++ [(h, v)] := by
  simp [metaSet, hl]

/-! ### Branch lemmas for the buffer allocator -/

theorem allocBuf_miss {s : BufferState} {sz : Nat} (hc : s.cache sz = []) :
    allocBuf s sz =
      (s.next,
        { meta := metaSet s.meta s.next sz
          cache := s.cache
          next := s.next + 1
          events := s.events ++ [BufEvent.create CL_MEM_READ_WRITE sz none]
          inUse := s.inUse ++ [s.next] }) := by
  simp [allocBuf, hc]

theorem allocBuf_hit {s : BufferState} {sz : Nat} (hc : s.cache sz ≠ []) :
    allocBuf s sz =
      ((s.cache sz).headD 0,
        { s with
            cache := fun k => if k = sz then (s.cache k).tail else s.cache k
            inUse := s.inUse ++ [(s.cache sz).headD 0] }) := by
  simp [allocBuf, hc]

theorem freeBuf_known {s : BufferState} {p sz : Nat}
    (hm : lookupA s.meta p = some sz) :
    freeBuf s p =
      { s with
          cache := fun k => if k = sz then p :: s.cache k else s.cache k
          inUse := s.inUse.erase p } := by
  simp [freeBuf, hm]

/-! ### Branch lemmas for the image allocator -/

theorem allocImage_miss {s : ImageState} {d : Image2DDesc}
    (hc : s.cache d = [])
    (hh1 : 0 < d.height) (hh2 : d.height ≤ (s.maxHeight : Int))
    (hw1 : 0 < d.width) (hw2 : d.width ≤ (s.maxWidth : Int)) :
    allocImage s d =
      { err := none
        handle := some s.next
        state :=
          { s with
              meta := metaSet s.meta s.next d
              next := s.next + 1
              events := s.events ++
                [ImgEvent.create CL_MEM_READ_WRITE
                  { channelDataType := if s.useFp16 then CL_HALF_FLOAT else CL_FLOAT
                    channelOrder := CL_RGBA }
                  { imageType := CL_MEM_OBJECT_IMAGE2D
                    imageWidth := d.width.toNat
                    imageHeight := d.height.toNat
                    imageDepth := 0
                    arraySize := 0
                    rowPitch := 0
                    slicePitch := 0
                    mipLevels := 0
                    numSamples := 0
                    buffer := none }
                  none]
              inUse := s.inUse ++ [s.next] } } := by
  simp [allocImage, hc, hh1, hh2, hw1, hw2]

theorem allocImage_hit {s : ImageState} {d : Image2DDesc} (hc : s.cache d ≠ []) :
    allocImage s d =
      { err := none
        handle := some ((s.cache d).headD 0)
        state :=
          { s with
              cache := fun k => if k = d then (s.cache k).tail else s.cache k
              inUse := s.inUse ++ [(s.cache d).headD 0] } } := by
  simp [allocImage, hc]

theorem freeImage_known {s : ImageState} {p : Nat} {d : Image2DDesc}
    (hm : lookupA s.meta p = some d) :
    freeImage s p =
      { s with
          cache := fun k => if k = d then p :: s.cache k else s.cache k
          inUse := s.inUse.erase p } := by
  simp [freeImage, hm]

/-! ### Buffer allocator invariants -/

/-- Invariant of a buffer-allocator state under well-formed usage.
Handles ever created are exactly `0, …, next − 1` (one per native
creation call); the metadata table has exactly one record per created
handle; every free-listed handle's record agrees with the list's key;
free lists are duplicate-free, pairwise disjoint and disjoint from the
in-use handles; only creation events are ever emitted by `Alloc` and
`Free`. -/
structure BufInv (s : BufferState) : Prop where
  meta_keys : s.meta.map Prod.fst = List.range s.next
  cache_meta : ∀ k h, h ∈ s.cache k → lookupA s.meta h = some k
  cache_nodup : ∀ k, (s.cache k).Nodup
  cache_disj : ∀ k k' h, h ∈ s.cache k → h ∈ s.cache k' → k = k'
  cache_inUse : ∀ k h, h ∈ s.cache k → h ∉ s.inUse
  inUse_nodup : s.inUse.Nodup
  inUse_lt : ∀ h ∈ s.inUse, h < s.next
  events_create : ∀ e ∈ s.events, ∃ f sz hp, e = BufEvent.create f sz hp
  events_len : s.events.length = s.next

theorem bufInv_cache_lt {s : BufferState} (hinv : BufInv s) {k h : Nat}
    (hm : h ∈ s.cache k) : h < s.next := by
  have h1 := hinv.cache_meta k h hm
  have h2 : h ∈ s.meta.map Prod.fst := by
    rw [← lookupA_isSome_iff, h1]
    rfl
  rw [hinv.meta_keys] at h2
  exact List.mem_range.1 h2

theorem bufInv_lookup_next {s : BufferState} (hinv : BufInv s) :
    lookupA s.meta s.next = none := by
  rw [lookupA_eq_none_iff, hinv.meta_keys]
  simp

theorem bufInv_inUse_lookup {s : BufferState} (hinv : BufInv s) {p : Nat}
    (hp : p ∈ s.inUse) : ∃ sz, lookupA s.meta p = some sz := by
  have h1 : p ∈ s.meta.map Prod.fst := by
    rw [hinv.meta_keys]
    exact List.mem_range.2 (hinv.inUse_lt p hp)
  rw [← lookupA_isSome_iff] at h1
  exact Option.isSome_iff_exists.1 h1

theorem bufInv_empty : BufInv emptyBufState := by
  constructor <;> simp [emptyBufState]

theorem bufInv_alloc {s : BufferState} (hinv : BufInv s) (sz : Nat) :
    BufInv (allocBuf s sz).2 := by
  by_cases hc : s.cache sz = []
  · rw [allocBuf_miss hc]
    have hmeta : metaSet s.meta s.next sz = s.meta ++ [(s.next, sz)] :=
      metaSet_of_lookupA_eq_none sz (bufInv_lookup_next hinv)
    constructor
    · simp only [hmeta, List.map_append, hinv.meta_keys, List.map_cons, List.map_nil]
      exact (List.range_succ s.next).symm
    · intro k h hm
      have h1 := hinv.cache_meta k h hm
      simp only [hmeta, lookupA_append, h1]
    · exact hinv.cache_nodup
    · exact hinv.cache_disj
    · intro k h hm
      have h1 := hinv.cache_inUse k h hm
      have h2 : h ≠ s.next := Nat.ne_of_lt (bufInv_cache_lt hinv hm)
      simp [h1, h2]
    · have h1 : s.next ∉ s.inUse := fun hmem =>
        Nat.lt_irrefl s.next (hinv.inUse_lt s.next hmem)
      simp [List.nodup_append, hinv.inUse_nodup, h1]
    · intro h hh
      simp only [List.mem_append, List.mem_singleton] at hh
      rcases hh with hh | hh
      · exact Nat.lt_succ_of_lt (hinv.inUse_lt h hh)
      · simp [hh]
    · intro e he
      simp only [List.mem_append, List.mem_singleton] at he
      rcases he with he | he
      · exact hinv.events_create e he
      · exact ⟨CL_MEM_READ_WRITE, sz, none, he⟩
    · simp [hinv.events_len]
  · rw [allocBuf_hit hc]
    obtain ⟨h0, rest, hrest⟩ := List.exists_cons_of_ne_nil hc
    have hh0 : (s.cache sz).headD 0 = h0 := by rw [hrest]; rfl
    have hh0mem : h0 ∈ s.cache sz := by rw [hrest]; exact List.mem_cons_self h0 rest
    have hsub : ∀ k h, h ∈ (if k = sz then (s.cache k).tail else s.cache k) →
        h ∈ s.cache k := by
      intro k h hm
      by_cases hk : k = sz
      · subst hk
        simp only [if_pos rfl] at hm
        exact List.tail_subset _ hm
      · simpa [hk] using hm
    have hne_h0 : ∀ k h, h ∈ (if k = sz then (s.cache k).tail else s.cache k) →
        h ≠ h0 := by
      intro k h hm heq
      by_cases hk : k = sz
      · rw [if_pos hk, hk, hrest, List.tail_cons] at hm
        have hnd := hinv.cache_nodup sz
        rw [hrest, List.nodup_cons] at hnd
        exact hnd.1 (by rwa [heq] at hm)
      · rw [if_neg hk] at hm
        have hmem : h ∈ s.cache sz := by rw [heq]; exact hh0mem
        exact hk (hinv.cache_disj k sz h hm hmem)
    constructor
    · exact hinv.meta_keys
    · intro k h hm
      exact hinv.cache_meta k h (hsub k h hm)
    · intro k
      show (if k = sz then (s.cache k).tail else s.cache k).Nodup
      by_cases hk : k = sz
      · rw [if_pos hk, hk, hrest, List.tail_cons]
        have hnd := hinv.cache_nodup sz
        rw [hrest, List.nodup_cons] at hnd
        exact hnd.2
      · rw [if_neg hk]
        exact hinv.cache_nodup k
    · intro k k' h hm hm'
      exact hinv.cache_disj k k' h (hsub k h hm) (hsub k' h hm')
    · intro k h hm
      have h1 := hinv.cache_inUse k h (hsub k h hm)
      have h2 := hne_h0 k h hm
      show h ∉ s.inUse ++ [(s.cache sz).headD 0]
      rw [hh0]
      simp only [List.mem_append, List.mem_singleton]
      rintro (hx | hx)
      · exact h1 hx
      · exact h2 hx
    · have h1 : h0 ∉ s.inUse := hinv.cache_inUse sz h0 hh0mem
      show (s.inUse ++ [(s.cache sz).headD 0]).Nodup
      rw [hh0]
      simp [List.nodup_append, hinv.inUse_nodup, h1]
    · intro h hh
      simp only [hh0, List.mem_append, List.mem_singleton] at hh
      rcases hh with hh | hh
      · exact hinv.inUse_lt h hh
      · subst hh
        exact bufInv_cache_lt hinv hh0mem
    · exact hinv.events_create
    · exact hinv.events_len

theorem bufInv_free {s : BufferState} (hinv : BufInv s) {p : Nat}
    (hp : p ∈ s.inUse) : BufInv (freeBuf s p) := by
  obtain ⟨sz, hsz⟩ := bufInv_inUse_lookup hinv hp
  rw [freeBuf_known hsz]
  have hpnotc : ∀ k, p ∉ s.cache k := by
    intro k hm
    exact hinv.cache_inUse k p hm hp
  have hsub : ∀ k h, h ∈ (if k = sz then p :: s.cache k else s.cache k) →
      h = p ∨ h ∈ s.cache k := by
    intro k h hm
    by_cases hk : k = sz
    · rw [if_pos hk] at hm
      exact List.mem_cons.1 hm
    · rw [if_neg hk] at hm
      exact Or.inr hm
  constructor
  · exact hinv.meta_keys
  · intro k h hm
    rcases hsub k h hm with hh | hh
    · subst hh
      have hk : k = sz := by
        by_contra hk
        simp only [if_neg hk] at hm
        exact hpnotc k hm
      rw [hk]
      exact hsz
    · exact hinv.cache_meta k h hh
  · intro k
    show (if k = sz then p :: s.cache k else s.cache k).Nodup
    by_cases hk : k = sz
    · rw [if_pos hk]
      exact List.nodup_cons.2 ⟨hpnotc k, hinv.cache_nodup k⟩
    · rw [if_neg hk]
      exact hinv.cache_nodup k
  · intro k k' h hm hm'
    rcases hsub k h hm with hh | hh
    · subst hh
      have hk : k = sz := by
        by_contra hk
        simp only [if_neg hk] at hm
        exact hpnotc k hm
      have hk' : k' = sz := by
        by_contra hk'
        simp only [if_neg hk'] at hm'
        exact hpnotc k' hm'
      rw [hk, hk']
    · rcases hsub k' h hm' with hh' | hh'
      · subst hh'
        exact absurd hh (hpnotc k)
      · exact hinv.cache_disj k k' h hh hh'
  · intro k h hm
    rcases hsub k h hm with hh | hh
    · subst hh
      exact hinv.inUse_nodup.not_mem_erase
    · intro hmem
      exact hinv.cache_inUse k h hh (List.erase_subset _ _ hmem)
  · exact hinv.inUse_nodup.erase p
  · intro h hh
    exact hinv.inUse_lt h (List.erase_subset _ _ hh)
  · exact hinv.events_create
  · exact hinv.events_len

theorem bufInv_reachable {s : BufferState} (hr : BufReachable s) : BufInv s := by
  induction hr with
  | init => exact bufInv_empty
  | alloc s sz _ ih => exact bufInv_alloc ih sz
  | free s p _ hp ih => exact bufInv_free ih hp

/-! ### Image allocator invariants -/

theorem allocImage_invalid_height {s : ImageState} {d : Image2DDesc}
    (hc : s.cache d = [])
    (hh : ¬ (0 < d.height ∧ d.height ≤ (s.maxHeight : Int))) :
    allocImage s d = { err := some "Image2D height invalid", handle := none, state := s } := by
  simp [allocImage, hc, hh]

theorem allocImage_invalid_width {s : ImageState} {d : Image2DDesc}
    (hc : s.cache d = [])
    (hh : 0 < d.height ∧ d.height ≤ (s.maxHeight : Int))
    (hw : ¬ (0 < d.width ∧ d.width ≤ (s.maxWidth : Int))) :
    allocImage s d = { err := some "Image2D width invalid", handle := none, state := s } := by
  simp [allocImage, hc, hh, hw]

/-- Invariant of an image-allocator state under well-formed usage;
the image analogue of `BufInv`. -/
structure ImgInv (s : ImageState) : Prop where
  meta_keys : s.meta.map Prod.fst = List.range s.next
  cache_meta : ∀ (k : Image2DDesc) (h : Nat), h ∈ s.cache k → lookupA s.meta h = some k
  cache_nodup : ∀ k : Image2DDesc, (s.cache k).Nodup
  cache_disj : ∀ (k k' : Image2DDesc) (h : Nat), h ∈ s.cache k → h ∈ s.cache k' → k = k'
  cache_inUse : ∀ (k : Image2DDesc) (h : Nat), h ∈ s.cache k → h ∉ s.inUse
  inUse_nodup : s.inUse.Nodup
  inUse_lt : ∀ h ∈ s.inUse, h < s.next
  events_create : ∀ e ∈ s.events, ∃ f fmt dsc hp, e = ImgEvent.create f fmt dsc hp
  events_len : s.events.length = s.next

theorem imgInv_cache_lt {s : ImageState} (hinv : ImgInv s) {k : Image2DDesc} {h : Nat}
    (hm : h ∈ s.cache k) : h < s.next := by
  have h1 := hinv.cache_meta k h hm
  have h2 : h ∈ s.meta.map Prod.fst := by
    rw [← lookupA_isSome_iff, h1]
    rfl
  rw [hinv.meta_keys] at h2
  exact List.mem_range.1 h2

theorem imgInv_lookup_next {s : ImageState} (hinv : ImgInv s) :
    lookupA s.meta s.next = none := by
  rw [lookupA_eq_none_iff, hinv.meta_keys]
  simp

theorem imgInv_inUse_lookup {s : ImageState} (hinv : ImgInv s) {p : Nat}
    (hp : p ∈ s.inUse) : ∃ d, lookupA s.meta p = some d := by
  have h1 : p ∈ s.meta.map Prod.fst := by
    rw [hinv.meta_keys]
    exact List.mem_range.2 (hinv.inUse_lt p hp)
  rw [← lookupA_isSome_iff] at h1
  exact Option.isSome_iff_exists.1 h1

theorem imgInv_empty (fp16 : Bool) (maxW maxH : Nat) :
    ImgInv (emptyImageState fp16 maxW maxH) := by
  constructor <;> simp [emptyImageState]

theorem imgInv_alloc {s : ImageState} (hinv : ImgInv s) (d : Image2DDesc) :
    ImgInv (allocImage s d).state := by
  by_cases hc : s.cache d = []
  · by_cases hh : 0 < d.height ∧ d.height ≤ (s.maxHeight : Int)
    · by_cases hw : 0 < d.width ∧ d.width ≤ (s.maxWidth : Int)
      · rw [allocImage_miss hc hh.1 hh.2 hw.1 hw.2]
        have hmeta : metaSet s.meta s.next d = s.meta ++ [(s.next, d)] :=
          metaSet_of_lookupA_eq_none d (imgInv_lookup_next hinv)
        constructor
        · simp only [hmeta, List.map_append, hinv.meta_keys, List.map_cons, List.map_nil]
          exact (List.range_succ s.next).symm
        · intro k h hm
          have h1 := hinv.cache_meta k h hm
          simp only [hmeta, lookupA_append, h1]
        · exact hinv.cache_nodup
        · exact hinv.cache_disj
        · intro k h hm
          have h1 := hinv.cache_inUse k h hm
          have h2 : h ≠ s.next := Nat.ne_of_lt (imgInv_cache_lt hinv hm)
          simp [h1, h2]
        · have h1 : s.next ∉ s.inUse := fun hmem =>
            Nat.lt_irrefl s.next (hinv.inUse_lt s.next hmem)
          simp [List.nodup_append, hinv.inUse_nodup, h1]
        · intro h hhm
          simp only [List.mem_append, List.mem_singleton] at hhm
          rcases hhm with hhm | hhm
          · exact Nat.lt_succ_of_lt (hinv.inUse_lt h hhm)
          · simp [hhm]
        · intro e he
          simp only [List.mem_append, List.mem_singleton] at he
          rcases he with he | he
          · exact hinv.events_create e he
          · exact ⟨CL_MEM_READ_WRITE, _, _, none, he⟩
        · simp [hinv.events_len]
      · rw [allocImage_invalid_width hc hh hw]
        exact hinv
    · rw [allocImage_invalid_height hc hh]
      exact hinv
  · rw [allocImage_hit hc]
    obtain ⟨h0, rest, hrest⟩ := List.exists_cons_of_ne_nil hc
    have hh0 : (s.cache d).headD 0 = h0 := by rw [hrest]; rfl
    have hh0mem : h0 ∈ s.cache d := by rw [hrest]; exact List.mem_cons_self h0 rest
    have hsub : ∀ (k : Image2DDesc) (h : Nat),
        h ∈ (if k = d then (s.cache k).tail else s.cache k) → h ∈ s.cache k := by
      intro k h hm
      by_cases hk : k = d
      · rw [if_pos hk] at hm
        exact List.tail_subset _ hm
      · rwa [if_neg hk] at hm
    have hne_h0 : ∀ (k : Image2DDesc) (h : Nat),
        h ∈ (if k = d then (s.cache k).tail else s.cache k) → h ≠ h0 := by
      intro k h hm heq
      by_cases hk : k = d
      · rw [if_pos hk, hk, hrest, List.tail_cons] at hm
        have hnd := hinv.cache_nodup d
        rw [hrest, List.nodup_cons] at hnd
        exact hnd.1 (by rwa [heq] at hm)
      · rw [if_neg hk] at hm
        have hmem : h ∈ s.cache d := by rw [heq]; exact hh0mem
        exact hk (hinv.cache_disj k d h hm hmem)
    constructor
    · exact hinv.meta_keys
    · intro k h hm
      exact hinv.cache_meta k h (hsub k h hm)
    · intro k
      show (if k = d then (s.cache k).tail else s.cache k).Nodup
      by_cases hk : k = d
      · rw [if_pos hk, hk, hrest, List.tail_cons]
        have hnd := hinv.cache_nodup d
        rw [hrest, List.nodup_cons] at hnd
        exact hnd.2
      · rw [if_neg hk]
        exact hinv.cache_nodup k
    · intro k k' h hm hm'
      exact hinv.cache_disj k k' h (hsub k h hm) (hsub k' h hm')
    · intro k h hm
      have h1 := hinv.cache_inUse k h (hsub k h hm)
      have h2 := hne_h0 k h hm
      show h ∉ s.inUse ++ [(s.cache d).headD 0]
      rw [hh0]
      simp only [List.mem_append, List.mem_singleton]
      rintro (hx | hx)
      · exact h1 hx
      · exact h2 hx
    · have h1 : h0 ∉ s.inUse := hinv.cache_inUse d h0 hh0mem
      show (s.inUse ++ [(s.cache d).headD 0]).Nodup
      rw [hh0]
      simp [List.nodup_append, hinv.inUse_nodup, h1]
    · intro h hhm
      simp only [hh0, List.mem_append, List.mem_singleton] at hhm
      rcases hhm with hhm | hhm
      · exact hinv.inUse_lt h hhm
      · subst hhm
        exact imgInv_cache_lt hinv hh0mem
    · exact hinv.events_create
    · exact hinv.events_len

theorem imgInv_free {s : ImageState} (hinv : ImgInv s) {p : Nat}
    (hp : p ∈ s.inUse) : ImgInv (freeImage s p) := by
  obtain ⟨d, hd⟩ := imgInv_inUse_lookup hinv hp
  rw [freeImage_known hd]
  have hpnotc : ∀ k : Image2DDesc, p ∉ s.cache k := by
    intro k hm
    exact hinv.cache_inUse k p hm hp
  have hsub : ∀ (k : Image2DDesc) (h : Nat),
      h ∈ (if k = d then p :: s.cache k else s.cache k) → h = p ∨ h ∈ s.cache k := by
    intro k h hm
    by_cases hk : k = d
    · rw [if_pos hk] at hm
      exact List.mem_cons.1 hm
    · rw [if_neg hk] at hm
      exact Or.inr hm
  constructor
  · exact hinv.meta_keys
  · intro k h hm
    rcases hsub k h hm with hh | hh
    · subst hh
      have hk : k = d := by
        by_contra hk
        simp only [if_neg hk] at hm
        exact hpnotc k hm
      rw [hk]
      exact hd
    · exact hinv.cache_meta k h hh
  · intro k
    show (if k = d then p :: s.cache k else s.cache k).Nodup
    by_cases hk : k = d
    · rw [if_pos hk]
      exact List.nodup_cons.2 ⟨hpnotc k, hinv.cache_nodup k⟩
    · rw [if_neg hk]
      exact hinv.cache_nodup k
  · intro k k' h hm hm'
    rcases hsub k h hm with hh | hh
    · subst hh
      have hk : k = d := by
        by_contra hk
        simp only [if_neg hk] at hm
        exact hpnotc k hm
      have hk' : k' = d := by
        by_contra hk'
        simp only [if_neg hk'] at hm'
        exact hpnotc k' hm'
      rw [hk, hk']
    · rcases hsub k' h hm' with hh' | hh'
      · subst hh'
        exact absurd hh (hpnotc k)
      · exact hinv.cache_disj k k' h hh hh'
  · intro k h hm
    rcases hsub k h hm with hh | hh
    · subst hh
      exact hinv.inUse_nodup.not_mem_erase
    · intro hmem
      exact hinv.cache_inUse k h hh (List.erase_subset _ _ hmem)
  · exact hinv.inUse_nodup.erase p
  · intro h hh
    exact hinv.inUse_lt h (List.erase_subset _ _ hh)
  · exact hinv.events_create
  · exact hinv.events_len

theorem imgInv_reachable {s : ImageState} (hr : ImgReachable s) : ImgInv s := by
  induction hr with
  | init fp16 maxW maxH => exact imgInv_empty fp16 maxW maxH
  | alloc s d _ ih => exact imgInv_alloc ih d
  | free s p _ hp ih => exact imgInv_free ih hp

/-! ### Helper lemmas about single operations -/

theorem allocBuf_handle_meta {s : BufferState} (hinv : BufInv s) (sz : Nat) :
    lookupA (allocBuf s sz).2.meta (allocBuf s sz).1 = some sz := by
  by_cases hc : s.cache sz = []
  · rw [allocBuf_miss hc]
    show lookupA (metaSet s.meta s.next sz) s.next = some sz
    rw [metaSet_of_lookupA_eq_none sz (bufInv_lookup_next hinv), lookupA_append, (bufInv_lookup_next hinv)]
    simp
  · rw [allocBuf_hit hc]
    obtain ⟨h0, rest, hrest⟩ := List.exists_cons_of_ne_nil hc
    show lookupA s.meta ((s.cache sz).headD 0) = some sz
    have hh0mem : h0 ∈ s.cache sz := by rw [hrest]; exact List.mem_cons_self h0 rest
    rw [hrest]
    exact hinv.cache_meta sz h0 hh0mem

theorem allocImage_ok {s : ImageState} (hinv : ImgInv s) {d : Image2DDesc}
    (hh1 : 0 < d.height) (hh2 : d.height ≤ (s.maxHeight : Int))
    (hw1 : 0 < d.width) (hw2 : d.width ≤ (s.maxWidth : Int)) :
    ∃ h, (allocImage s d).err = none ∧ (allocImage s d).handle = some h ∧
      lookupA (allocImage s d).state.meta h = some d := by
  by_cases hc : s.cache d = []
  · refine ⟨s.next, ?_⟩
    rw [allocImage_miss hc hh1 hh2 hw1 hw2]
    refine ⟨rfl, rfl, ?_⟩
    show lookupA (metaSet s.meta s.next d) s.next = some d
    rw [metaSet_of_lookupA_eq_none d (imgInv_lookup_next hinv), lookupA_append, (imgInv_lookup_next hinv)]
    simp
  · obtain ⟨h0, rest, hrest⟩ := List.exists_cons_of_ne_nil hc
    refine ⟨(s.cache d).headD 0, ?_⟩
    rw [allocImage_hit hc]
    refine ⟨rfl, rfl, ?_⟩
    show lookupA s.meta ((s.cache d).headD 0) = some d
    have hh0mem : h0 ∈ s.cache d := by rw [hrest]; exact List.mem_cons_self h0 rest
    rw [hrest]
    exact hinv.cache_meta d h0 hh0mem

theorem freeBuf_cache_self {s : BufferState} {p sz : Nat}
    (hm : lookupA s.meta p = some sz) :
    (freeBuf s p).cache sz = p :: s.cache sz := by
  rw [freeBuf_known hm]
  simp

theorem freeImage_cache_self {s : ImageState} {p : Nat} {d : Image2DDesc}
    (hm : lookupA s.meta p = some d) :
    (freeImage s p).cache d = p :: s.cache d := by
  rw [freeImage_known hm]
  simp

theorem freeBuf_fields {s : BufferState} {p sz : Nat}
    (hm : lookupA s.meta p = some sz) :
    (freeBuf s p).meta = s.meta ∧ (freeBuf s p).events = s.events ∧
      (freeBuf s p).next = s.next := by
  rw [freeBuf_known hm]
  exact ⟨rfl, rfl, rfl⟩

theorem freeImage_fields {s : ImageState} {p : Nat} {d : Image2DDesc}
    (hm : lookupA s.meta p = some d) :
    (freeImage s p).meta = s.meta ∧ (freeImage s p).events = s.events ∧
      (freeImage s p).next = s.next ∧ (freeImage s p).useFp16 = s.useFp16 ∧
      (freeImage s p).maxWidth = s.maxWidth ∧ (freeImage s p).maxHeight = s.maxHeight := by
  rw [freeImage_known hm]
  exact ⟨rfl, rfl, rfl, rfl, rfl, rfl⟩

theorem freeBuf_cache_other {s : BufferState} {p sz k : Nat}
    (hm : lookupA s.meta p = some sz) (hk : k ≠ sz) :
    (freeBuf s p).cache k = s.cache k := by
  rw [freeBuf_known hm]
  show (if k = sz then p :: s.cache k else s.cache k) = s.cache k
  rw [if_neg hk]

theorem freeImage_cache_other {s : ImageState} {p : Nat} {d k : Image2DDesc}
    (hm : lookupA s.meta p = some d) (hk : k ≠ d) :
    (freeImage s p).cache k = s.cache k := by
  rw [freeImage_known hm]
  show (if k = d then p :: s.cache k else s.cache k) = s.cache k
  rw [if_neg hk]

theorem allocBuf_hit_fields {s : BufferState} {sz h : Nat} {rest : List Nat}
    (hc : s.cache sz = h :: rest) :
    (allocBuf s sz).1 = h ∧ (allocBuf s sz).2.cache sz = rest ∧
      (allocBuf s sz).2.events = s.events := by
  have hne : s.cache sz ≠ [] := by rw [hc]; exact List.cons_ne_nil _ _
  rw [allocBuf_hit hne]
  refine ⟨?_, ?_, rfl⟩
  · show (s.cache sz).headD 0 = h
    rw [hc]
    rfl
  · show (if sz = sz then (s.cache sz).tail else s.cache sz) = rest
    rw [if_pos rfl, hc]
    rfl

theorem allocImage_hit_fields {s : ImageState} {d : Image2DDesc} {h : Nat}
    {rest : List Nat} (hc : s.cache d = h :: rest) :
    (allocImage s d).err = none ∧ (allocImage s d).handle = some h ∧
      (allocImage s d).state.cache d = rest ∧
      (allocImage s d).state.events = s.events := by
  have hne : s.cache d ≠ [] := by rw [hc]; exact List.cons_ne_nil _ _
  rw [allocImage_hit hne]
  refine ⟨rfl, ?_, ?_, rfl⟩
  · show some ((s.cache d).headD 0) = some h
    rw [hc]
    rfl
  · show (if d = d then (s.cache d).tail else s.cache d) = rest
    rw [if_pos rfl, hc]
    rfl

/-! ### Claims -/

/-- Claim C1: for every key and both allocators, in the sequence
`Alloc(k)` returning `h`, then `Free(h)`, then `Alloc(k)`, the second
`Alloc` returns the same handle `h` and makes no native allocation call
(the event trace is unchanged).  Stated from any state satisfying the
allocator invariant (in particular any reachable state); for the image
allocator the key must have device-admissible dimensions so that the
first `Alloc` itself succeeds. -/
theorem reuse_correctness :
    (∀ (s : BufferState), BufInv s → ∀ sz : Nat,
      (allocBuf (freeBuf (allocBuf s sz).2 (allocBuf s sz).1) sz).1 = (allocBuf s sz).1 ∧
      (allocBuf (freeBuf (allocBuf s sz).2 (allocBuf s sz).1) sz).2.events =
        (freeBuf (allocBuf s sz).2 (allocBuf s sz).1).events) ∧
    (∀ (s : ImageState), ImgInv s → ∀ d : Image2DDesc,
      0 < d.height → d.height ≤ (s.maxHeight : Int) →
      0 < d.width → d.width ≤ (s.maxWidth : Int) →
      ∃ h1, (allocImage s d).err = none ∧ (allocImage s d).handle = some h1 ∧
        (allocImage (freeImage (allocImage s d).state h1) d).err = none ∧
        (allocImage (freeImage (allocImage s d).state h1) d).handle = some h1 ∧
        (allocImage (freeImage (allocImage s d).state h1) d).state.events =
          (freeImage (allocImage s d).state h1).events) := by
  constructor
  · intro s hinv sz
    have hmeta := allocBuf_handle_meta hinv sz
    have hcache := freeBuf_cache_self hmeta
    have ha := allocBuf_hit_fields hcache
    exact ⟨ha.1, ha.2.2⟩
  · intro s hinv d hh1 hh2 hw1 hw2
    obtain ⟨h1, herr, hhandle, hmeta⟩ := allocImage_ok hinv hh1 hh2 hw1 hw2
    have hcache := freeImage_cache_self hmeta
    have ha := allocImage_hit_fields hcache
    exact ⟨h1, herr, hhandle, ha.1, ha.2.1, ha.2.2.2⟩

/-- Witness for C1 at concrete inputs: buffer key 256 from a fresh
buffer allocator, and an 8×8 image from a fresh image allocator with
device limits 1024×1024. -/
theorem reuse_correctness_witness :
    ((allocBuf (freeBuf (allocBuf emptyBufState 256).2 (allocBuf emptyBufState 256).1) 256).1 =
        (allocBuf emptyBufState 256).1 ∧
      (allocBuf (freeBuf (allocBuf emptyBufState 256).2 (allocBuf emptyBufState 256).1) 256).2.events =
        (freeBuf (allocBuf emptyBufState 256).2 (allocBuf emptyBufState 256).1).events) ∧
    (∃ h1, (allocImage (emptyImageState false 1024 1024) ⟨8, 8⟩).err = none ∧
      (allocImage (emptyImageState false 1024 1024) ⟨8, 8⟩).handle = some h1 ∧
      (allocImage (freeImage (allocImage (emptyImageState false 1024 1024) ⟨8, 8⟩).state h1)
        ⟨8, 8⟩).err = none ∧
      (allocImage (freeImage (allocImage (emptyImageState false 1024 1024) ⟨8, 8⟩).state h1)
        ⟨8, 8⟩).handle = some h1 ∧
      (allocImage (freeImage (allocImage (emptyImageState false 1024 1024) ⟨8, 8⟩).state h1)
        ⟨8, 8⟩).state.events =
        (freeImage (allocImage (emptyImageState false 1024 1024) ⟨8, 8⟩).state h1).events) :=
  ⟨reuse_correctness.1 emptyBufState bufInv_empty 256,
   reuse_correctness.2 (emptyImageState false 1024 1024) (imgInv_empty false 1024 1024)
     ⟨8, 8⟩ (by decide) (by decide) (by decide) (by decide)⟩

/-- Claim C2: free-list LIFO ordering, for both allocators.  If `h1`
and `h2` are handles whose metadata records carry the same key `k`,
then after `Free(h1); Free(h2)`, two `Alloc(k)` calls return `h2` first
and `h1` second (most-recently-freed first). -/
theorem free_list_lifo :
    (∀ (s : BufferState) (h1 h2 k : Nat),
      lookupA s.meta h1 = some k → lookupA s.meta h2 = some k →
      (allocBuf (freeBuf (freeBuf s h1) h2) k).1 = h2 ∧
      (allocBuf (allocBuf (freeBuf (freeBuf s h1) h2) k).2 k).1 = h1) ∧
    (∀ (s : ImageState) (h1 h2 : Nat) (d : Image2DDesc),
      lookupA s.meta h1 = some d → lookupA s.meta h2 = some d →
      (allocImage (freeImage (freeImage s h1) h2) d).handle = some h2 ∧
      (allocImage (allocImage (freeImage (freeImage s h1) h2) d).state d).handle = some h1) := by
  constructor
  · intro s h1 h2 k hm1 hm2
    have hm2' : lookupA (freeBuf s h1).meta h2 = some k := by
      rw [(freeBuf_fields hm1).1]
      exact hm2
    have hc2 : (freeBuf (freeBuf s h1) h2).cache k = h2 :: h1 :: s.cache k := by
      rw [freeBuf_cache_self hm2', freeBuf_cache_self hm1]
    have ha1 := allocBuf_hit_fields hc2
    have ha2 := allocBuf_hit_fields ha1.2.1
    exact ⟨ha1.1, ha2.1⟩
  · intro s h1 h2 d hm1 hm2
    have hm2' : lookupA (freeImage s h1).meta h2 = some d := by
      rw [(freeImage_fields hm1).1]
      exact hm2
    have hc2 : (freeImage (freeImage s h1) h2).cache d = h2 :: h1 :: s.cache d := by
      rw [freeImage_cache_self hm2', freeImage_cache_self hm1]
    have ha1 := allocImage_hit_fields hc2
    have ha2 := allocImage_hit_fields ha1.2.2.1
    exact ⟨ha1.2.1, ha2.2.1⟩

/-- Witness for C2: a buffer allocator after two `Alloc(3)` calls
(handles 0 and 1), and an image allocator after two `Alloc(2×2)` calls,
freed and reallocated in LIFO order. -/
theorem free_list_lifo_witness :
    ((allocBuf (freeBuf (freeBuf (allocBuf (allocBuf emptyBufState 3).2 3).2 0) 1) 3).1 = 1 ∧
      (allocBuf (allocBuf (freeBuf (freeBuf (allocBuf (allocBuf emptyBufState 3).2 3).2 0) 1) 3).2
        3).1 = 0) ∧
    ((allocImage (freeImage (freeImage
        (allocImage (allocImage (emptyImageState false 4 4) ⟨2, 2⟩).state ⟨2, 2⟩).state 0) 1)
        ⟨2, 2⟩).handle = some 1 ∧
      (allocImage (allocImage (freeImage (freeImage
        (allocImage (allocImage (emptyImageState false 4 4) ⟨2, 2⟩).state ⟨2, 2⟩).state 0) 1)
        ⟨2, 2⟩).state ⟨2, 2⟩).handle = some 0) :=
  ⟨free_list_lifo.1 (allocBuf (allocBuf emptyBufState 3).2 3).2 0 1 3 (by decide) (by decide),
   free_list_lifo.2
     (allocImage (allocImage (emptyImageState false 4 4) ⟨2, 2⟩).state ⟨2, 2⟩).state 0 1
     ⟨2, 2⟩ (by decide) (by decide)⟩

/-- Claim C3: key isolation, for both allocators.  Starting from a
fresh allocator, `Alloc(k1)` returning `h1`, then `Free(h1)`, then
`Alloc(k2)` with `k1 ≠ k2` does not return `h1`, and the second `Alloc`
performs a fresh native allocation (a creation event is appended to the
trace). -/
theorem key_isolation :
    (∀ k1 k2 : Nat, k1 ≠ k2 →
      (allocBuf (freeBuf (allocBuf emptyBufState k1).2 (allocBuf emptyBufState k1).1) k2).1 ≠
        (allocBuf emptyBufState k1).1 ∧
      (allocBuf (freeBuf (allocBuf emptyBufState k1).2 (allocBuf emptyBufState k1).1) k2).2.events =
        (freeBuf (allocBuf emptyBufState k1).2 (allocBuf emptyBufState k1).1).events ++
          [BufEvent.create CL_MEM_READ_WRITE k2 none]) ∧
    (∀ (fp16 : Bool) (maxW maxH : Nat) (d1 d2 : Image2DDesc), d1 ≠ d2 →
      0 < d1.height → d1.height ≤ (maxH : Int) → 0 < d1.width → d1.width ≤ (maxW : Int) →
      0 < d2.height → d2.height ≤ (maxH : Int) → 0 < d2.width → d2.width ≤ (maxW : Int) →
      ∃ h1, (allocImage (emptyImageState fp16 maxW maxH) d1).handle = some h1 ∧
        (allocImage (freeImage (allocImage (emptyImageState fp16 maxW maxH) d1).state h1)
            d2).handle ≠ some h1 ∧
        ∃ fmt idesc,
          (allocImage (freeImage (allocImage (emptyImageState fp16 maxW maxH) d1).state h1)
              d2).state.events =
            (freeImage (allocImage (emptyImageState fp16 maxW maxH) d1).state h1).events ++
              [ImgEvent.create CL_MEM_READ_WRITE fmt idesc none]) := by
  constructor
  · intro k1 k2 hne
    have hm : lookupA (allocBuf emptyBufState k1).2.meta (allocBuf emptyBufState k1).1 =
        some k1 := allocBuf_handle_meta bufInv_empty k1
    have hc : (freeBuf (allocBuf emptyBufState k1).2 (allocBuf emptyBufState k1).1).cache k2 =
        [] := by
      rw [freeBuf_cache_other hm (Ne.symm hne),
        allocBuf_miss (show emptyBufState.cache k1 = [] from rfl)]
      rfl
    have hfst : (allocBuf emptyBufState k1).1 = 0 := by
      rw [allocBuf_miss (show emptyBufState.cache k1 = [] from rfl)]
      rfl
    have hnext :
        (freeBuf (allocBuf emptyBufState k1).2 (allocBuf emptyBufState k1).1).next = 1 := by
      rw [(freeBuf_fields hm).2.2,
        allocBuf_miss (show emptyBufState.cache k1 = [] from rfl)]
      rfl
    constructor
    · rw [allocBuf_miss hc]
      show (freeBuf (allocBuf emptyBufState k1).2 (allocBuf emptyBufState k1).1).next ≠
        (allocBuf emptyBufState k1).1
      rw [hnext, hfst]
      exact one_ne_zero
    · rw [allocBuf_miss hc]
  · intro fp16 maxW maxH d1 d2 hne hh1 hh2 hw1 hw2 hh1' hh2' hw1' hw2'
    have ha1 := allocImage_miss (s := emptyImageState fp16 maxW maxH)
      (show (emptyImageState fp16 maxW maxH).cache d1 = [] from rfl) hh1 hh2 hw1 hw2
    refine ⟨0, ?_, ?_, ?_⟩
    · rw [ha1]
      rfl
    · have hm : lookupA (allocImage (emptyImageState fp16 maxW maxH) d1).state.meta 0 =
          some d1 := by
        rw [ha1]
        rfl
      have hc : (freeImage (allocImage (emptyImageState fp16 maxW maxH) d1).state 0).cache d2 =
          [] := by
        rw [freeImage_cache_other hm (Ne.symm hne), ha1]
        rfl
      have hmaxH :
          ((freeImage (allocImage (emptyImageState fp16 maxW maxH) d1).state 0).maxHeight :
            Nat) = maxH := by
        rw [(freeImage_fields hm).2.2.2.2.2, ha1]
        rfl
      have hmaxW :
          ((freeImage (allocImage (emptyImageState fp16 maxW maxH) d1).state 0).maxWidth :
            Nat) = maxW := by
        rw [(freeImage_fields hm).2.2.2.2.1, ha1]
        rfl
      have ha2 := allocImage_miss hc hh1' (by rw [hmaxH]; exact hh2') hw1'
        (by rw [hmaxW]; exact hw2')
      rw [ha2]
      have hnext :
          (freeImage (allocImage (emptyImageState fp16 maxW maxH) d1).state 0).next = 1 := by
        rw [(freeImage_fields hm).2.2.1, ha1]
        rfl
      show some (freeImage (allocImage (emptyImageState fp16 maxW maxH) d1).state 0).next ≠
        some 0
      rw [hnext]
      simp
    · have hm : lookupA (allocImage (emptyImageState fp16 maxW maxH) d1).state.meta 0 =
          some d1 := by
        rw [ha1]
        rfl
      have hc : (freeImage (allocImage (emptyImageState fp16 maxW maxH) d1).state 0).cache d2 =
          [] := by
        rw [freeImage_cache_other hm (Ne.symm hne), ha1]
        rfl
      have hmaxH :
          ((freeImage (allocImage (emptyImageState fp16 maxW maxH) d1).state 0).maxHeight :
            Nat) = maxH := by
        rw [(freeImage_fields hm).2.2.2.2.2, ha1]
        rfl
      have hmaxW :
          ((freeImage (allocImage (emptyImageState fp16 maxW maxH) d1).state 0).maxWidth :
            Nat) = maxW := by
        rw [(freeImage_fields hm).2.2.2.2.1, ha1]
        rfl
      have ha2 := allocImage_miss hc hh1' (by rw [hmaxH]; exact hh2') hw1'
        (by rw [hmaxW]; exact hw2')
      have huse : (freeImage (allocImage (emptyImageState fp16 maxW maxH) d1).state 0).useFp16
          = fp16 := by
        rw [(freeImage_fields hm).2.2.2.1, ha1]
        rfl
      refine ⟨{ channelDataType := if fp16 then CL_HALF_FLOAT else CL_FLOAT,
                channelOrder := CL_RGBA },
              { imageType := CL_MEM_OBJECT_IMAGE2D, imageWidth := d2.width.toNat,
                imageHeight := d2.height.toNat, imageDepth := 0, arraySize := 0,
                rowPitch := 0, slicePitch := 0, mipLevels := 0, numSamples := 0,
                buffer := none }, ?_⟩
      rw [ha2, huse]

/-- Witness for C3: buffer keys 256 versus 512 and image descriptors
2×2 versus 3×3 under device limits 16×16. -/
theorem key_isolation_witness :
    ((allocBuf (freeBuf (allocBuf emptyBufState 256).2 (allocBuf emptyBufState 256).1) 512).1 ≠
        (allocBuf emptyBufState 256).1 ∧
      (allocBuf (freeBuf (allocBuf emptyBufState 256).2 (allocBuf emptyBufState 256).1)
          512).2.events =
        (freeBuf (allocBuf emptyBufState 256).2 (allocBuf emptyBufState 256).1).events ++
          [BufEvent.create CL_MEM_READ_WRITE 512 none]) ∧
    (∃ h1, (allocImage (emptyImageState false 16 16) ⟨2, 2⟩).handle = some h1 ∧
      (allocImage (freeImage (allocImage (emptyImageState false 16 16) ⟨2, 2⟩).state h1)
          ⟨3, 3⟩).handle ≠ some h1 ∧
      ∃ fmt idesc,
        (allocImage (freeImage (allocImage (emptyImageState false 16 16) ⟨2, 2⟩).state h1)
            ⟨3, 3⟩).state.events =
          (freeImage (allocImage (emptyImageState false 16 16) ⟨2, 2⟩).state h1).events ++
            [ImgEvent.create CL_MEM_READ_WRITE fmt idesc none]) :=
  ⟨key_isolation.1 256 512 (by decide),
   key_isolation.2 false 16 16 ⟨2, 2⟩ ⟨3, 3⟩ (by decide) (by decide) (by decide) (by decide)
     (by decide) (by decide) (by decide) (by decide) (by decide)⟩

/-- Claim C4: image dimension validation.  On a cache miss, a
descriptor with invalid height fails with the `Image2D height invalid`
enforce message and an untouched state (no native call); with valid
height but invalid width it fails with `Image2D width invalid`; the
descriptor `(max-width, max-height)` succeeds; on a cache hit the
validation is skipped entirely (the call succeeds and makes no native
call whatever the dimensions are). -/
theorem image_dimension_validation :
    (∀ (s : ImageState) (d : Image2DDesc), s.cache d = [] →
      ¬ (0 < d.height ∧ d.height ≤ (s.maxHeight : Int)) →
      allocImage s d = { err := some "Image2D height invalid", handle := none, state := s }) ∧
    (∀ (s : ImageState) (d : Image2DDesc), s.cache d = [] →
      (0 < d.height ∧ d.height ≤ (s.maxHeight : Int)) →
      ¬ (0 < d.width ∧ d.width ≤ (s.maxWidth : Int)) →
      allocImage s d = { err := some "Image2D width invalid", handle := none, state := s }) ∧
    (∀ s : ImageState, s.cache ⟨(s.maxWidth : Int), (s.maxHeight : Int)⟩ = [] →
      0 < s.maxWidth → 0 < s.maxHeight →
      (allocImage s ⟨(s.maxWidth : Int), (s.maxHeight : Int)⟩).err = none ∧
      (allocImage s ⟨(s.maxWidth : Int), (s.maxHeight : Int)⟩).handle = some s.next) ∧
    (∀ (s : ImageState) (d : Image2DDesc), s.cache d ≠ [] →
      (allocImage s d).err = none ∧ (allocImage s d).state.events = s.events) := by
  refine ⟨?_, ?_, ?_, ?_⟩
  · intro s d hc hh
    exact allocImage_invalid_height hc hh
  · intro s d hc hh hw
    exact allocImage_invalid_width hc hh hw
  · intro s hc hw hh
    have ha := allocImage_miss hc (d := ⟨(s.maxWidth : Int), (s.maxHeight : Int)⟩)
      (by show (0 : Int) < (s.maxHeight : Int); exact_mod_cast hh) (by exact le_refl _)
      (by show (0 : Int) < (s.maxWidth : Int); exact_mod_cast hw) (by exact le_refl _)
    rw [ha]
    exact ⟨rfl, rfl⟩
  · intro s d hc
    rw [allocImage_hit hc]
    exact ⟨rfl, rfl⟩

/-- Witness for C4: with device limits 4×4, height 0 and width 0 or 5
are rejected with the named enforce message and untouched state; the
4×4 descriptor succeeds; a (manufactured) cache hit on a 99×99
descriptor succeeds without validation. -/
theorem image_dimension_validation_witness :
    allocImage (emptyImageState false 4 4) ⟨2, 0⟩ =
      { err := some "Image2D height invalid", handle := none,
        state := emptyImageState false 4 4 } ∧
    allocImage (emptyImageState false 4 4) ⟨0, 2⟩ =
      { err := some "Image2D width invalid", handle := none,
        state := emptyImageState false 4 4 } ∧
    allocImage (emptyImageState false 4 4) ⟨5, 2⟩ =
      { err := some "Image2D width invalid", handle := none,
        state := emptyImageState false 4 4 } ∧
    (allocImage (emptyImageState false 4 4) ⟨4, 4⟩).err = none ∧
    (allocImage
      { emptyImageState false 4 4 with cache := fun k => if k = ⟨99, 99⟩ then [5] else [] }
      ⟨99, 99⟩).err = none :=
  ⟨image_dimension_validation.1 (emptyImageState false 4 4) ⟨2, 0⟩ rfl (by decide),
   image_dimension_validation.2.1 (emptyImageState false 4 4) ⟨0, 2⟩ rfl (by decide) (by decide),
   image_dimension_validation.2.1 (emptyImageState false 4 4) ⟨5, 2⟩ rfl (by decide) (by decide),
   (image_dimension_validation.2.2.1 (emptyImageState false 4 4) rfl (by decide) (by decide)).1,
   (image_dimension_validation.2.2.2
     { emptyImageState false 4 4 with cache := fun k => if k = ⟨99, 99⟩ then [5] else [] }
     ⟨99, 99⟩ (by decide)).1⟩

/-- Claim C5: teardown releases everything exactly once, and only at
teardown.  In every reachable state of either allocator, the destructor
emits exactly the release events of handles `0, …, next − 1` — one
release per handle ever created, no duplicate, no leak — while the
event trace accumulated by `Alloc`/`Free` consists of creation events
only (neither `Alloc` nor `Free` ever calls the native release
primitive), with exactly one creation event per created handle. -/
theorem teardown_releases_all :
    (∀ s : BufferState, BufReachable s →
      destructBuf s = (List.range s.next).map BufEvent.release ∧
      (destructBuf s).Nodup ∧
      s.events.length = s.next ∧
      (∀ e ∈ s.events, ∃ f sz hp, e = BufEvent.create f sz hp)) ∧
    (∀ s : ImageState, ImgReachable s →
      destructImage s = (List.range s.next).map ImgEvent.release ∧
      (destructImage s).Nodup ∧
      s.events.length = s.next ∧
      (∀ e ∈ s.events, ∃ f fmt dsc hp, e = ImgEvent.create f fmt dsc hp)) := by
  constructor
  · intro s hr
    have hinv := bufInv_reachable hr
    have h1 : destructBuf s = (List.range s.next).map BufEvent.release := by
      rw [← hinv.meta_keys, List.map_map]
      rfl
    refine ⟨h1, ?_, hinv.events_len, hinv.events_create⟩
    rw [h1]
    exact (List.nodup_range s.next).map (fun a b h => by injection h)
  · intro s hr
    have hinv := imgInv_reachable hr
    have h1 : destructImage s = (List.range s.next).map ImgEvent.release := by
      rw [← hinv.meta_keys, List.map_map]
      rfl
    refine ⟨h1, ?_, hinv.events_len, hinv.events_create⟩
    rw [h1]
    exact (List.nodup_range s.next).map (fun a b h => by injection h)

/-- Witness for C5 at a concrete reachable state: a buffer allocator
after `Alloc(256); Alloc(512); Free(0)` (handle 0 parked, handle 1
still in use) and an image allocator after `Alloc(2×2)`. -/
theorem teardown_releases_all_witness :
    destructBuf (freeBuf (allocBuf (allocBuf emptyBufState 256).2 512).2 0) =
      (List.range (freeBuf (allocBuf (allocBuf emptyBufState 256).2 512).2 0).next).map
        BufEvent.release ∧
    destructImage (allocImage (emptyImageState false 4 4) ⟨2, 2⟩).state =
      (List.range (allocImage (emptyImageState false 4 4) ⟨2, 2⟩).state.next).map
        ImgEvent.release :=
  ⟨(teardown_releases_all.1 _
      (BufReachable.free _ 0
        (BufReachable.alloc _ 512 (BufReachable.alloc _ 256 BufReachable.init))
        (by decide))).1,
   (teardown_releases_all.2 _
      (ImgReachable.alloc _ ⟨2, 2⟩ (ImgReachable.init false 4 4))).1⟩

/-- Claim C7: state invariants preserved by every operation.  In every
reachable state of either allocator: every handle that is in use by the
caller or sits in a free list has exactly one metadata record; a handle
appears in at most one free list (and at most once in it); and no
handle is simultaneously free-listed and in use. -/
theorem state_invariants :
    (∀ s : BufferState, BufReachable s →
      (∀ h : Nat, (h ∈ s.inUse ∨ ∃ k, h ∈ s.cache k) →
        (s.meta.map Prod.fst).count h = 1) ∧
      (∀ k k' h : Nat, h ∈ s.cache k → h ∈ s.cache k' → k = k') ∧
      (∀ k : Nat, (s.cache k).Nodup) ∧
      (∀ k h : Nat, h ∈ s.cache k → h ∉ s.inUse)) ∧
    (∀ s : ImageState, ImgReachable s →
      (∀ h : Nat, (h ∈ s.inUse ∨ ∃ k, h ∈ s.cache k) →
        (s.meta.map Prod.fst).count h = 1) ∧
      (∀ (k k' : Image2DDesc) (h : Nat), h ∈ s.cache k → h ∈ s.cache k' → k = k') ∧
      (∀ k : Image2DDesc, (s.cache k).Nodup) ∧
      (∀ (k : Image2DDesc) (h : Nat), h ∈ s.cache k → h ∉ s.inUse)) := by
  constructor
  · intro s hr
    have hinv := bufInv_reachable hr
    refine ⟨?_, hinv.cache_disj, hinv.cache_nodup, hinv.cache_inUse⟩
    intro h hmem
    rw [hinv.meta_keys]
    refine List.count_eq_one_of_mem (List.nodup_range _) ?_
    rcases hmem with hm | ⟨k, hm⟩
    · exact List.mem_range.2 (hinv.inUse_lt h hm)
    · exact List.mem_range.2 (bufInv_cache_lt hinv hm)
  · intro s hr
    have hinv := imgInv_reachable hr
    refine ⟨?_, hinv.cache_disj, hinv.cache_nodup, hinv.cache_inUse⟩
    intro h hmem
    rw [hinv.meta_keys]
    refine List.count_eq_one_of_mem (List.nodup_range _) ?_
    rcases hmem with hm | ⟨k, hm⟩
    · exact List.mem_range.2 (hinv.inUse_lt h hm)
    · exact List.mem_range.2 (imgInv_cache_lt hinv hm)

/-- Witness for C7: the in-use handle 0 has exactly one metadata record
after one allocation, for both allocators. -/
theorem state_invariants_witness :
    ((allocBuf emptyBufState 4).2.meta.map Prod.fst).count 0 = 1 ∧
    ((allocImage (emptyImageState false 4 4) ⟨2, 2⟩).state.meta.map Prod.fst).count 0 = 1 :=
  ⟨(state_invariants.1 _ (BufReachable.alloc _ 4 BufReachable.init)).1 0
      (Or.inl (by decide)),
   (state_invariants.2 _ (ImgReachable.alloc _ ⟨2, 2⟩ (ImgReachable.init false 4 4))).1 0
      (Or.inl (by decide))⟩

/-- Claim C8: the size-only `Alloc(size_t)` overload of the image
allocator always returns a null handle and leaves the state untouched
(no native call, no handle, no table access), whatever the size and the
cache state. -/
theorem size_only_alloc_unsupported :
    ∀ (s : ImageState) (sz : Nat), allocImageSize s sz = (none, s) :=
  fun _ _ => rfl

/-- Claim C9: image creation parameters.  On every cache miss that
passes validation, the native image-creation call uses read-write
access, a 2-D image type of exactly the requested width and height with
all unused depth/array/pitch/mip/sample fields zeroed and no backing
buffer or host pointer, and a 4-channel RGBA format whose data type is
half-float exactly when the instance's `use_fp16` flag is set, and full
float otherwise. -/
theorem image_creation_parameters :
    ∀ (s : ImageState) (d : Image2DDesc), s.cache d = [] →
      0 < d.height → d.height ≤ (s.maxHeight : Int) →
      0 < d.width → d.width ≤ (s.maxWidth : Int) →
      ∃ fmt idesc,
        (allocImage s d).state.events = s.events ++
          [ImgEvent.create CL_MEM_READ_WRITE fmt idesc none] ∧
        fmt.channelOrder = CL_RGBA ∧
        (fmt.channelDataType = CL_HALF_FLOAT ↔ s.useFp16 = true) ∧
        (fmt.channelDataType = CL_FLOAT ↔ s.useFp16 = false) ∧
        idesc.imageType = CL_MEM_OBJECT_IMAGE2D ∧
        idesc.imageWidth = d.width.toNat ∧ idesc.imageHeight = d.height.toNat ∧
        idesc.imageDepth = 0 ∧ idesc.arraySize = 0 ∧ idesc.rowPitch = 0 ∧
        idesc.slicePitch = 0 ∧ idesc.mipLevels = 0 ∧ idesc.numSamples = 0 ∧
        idesc.buffer = none := by
  intro s d hc hh1 hh2 hw1 hw2
  rw [allocImage_miss hc hh1 hh2 hw1 hw2]
  refine ⟨_, _, rfl, rfl, ?_, ?_, rfl, rfl, rfl, rfl, rfl, rfl, rfl, rfl, rfl, rfl⟩
  · show (if s.useFp16 then CL_HALF_FLOAT else CL_FLOAT) = CL_HALF_FLOAT ↔ s.useFp16 = true
    cases hu : s.useFp16 <;> simp [CL_HALF_FLOAT, CL_FLOAT]
  · show (if s.useFp16 then CL_HALF_FLOAT else CL_FLOAT) = CL_FLOAT ↔ s.useFp16 = false
    cases hu : s.useFp16 <;> simp [CL_HALF_FLOAT, CL_FLOAT]

/-- Witness for C9: a 3×2 image on a fresh allocator, once with
`use_fp16 = false` and once with `use_fp16 = true`. -/
theorem image_creation_parameters_witness :
    (∃ fmt idesc,
      (allocImage (emptyImageState false 8 8) ⟨3, 2⟩).state.events =
        (emptyImageState false 8 8).events ++
          [ImgEvent.create CL_MEM_READ_WRITE fmt idesc none] ∧
      fmt.channelOrder = CL_RGBA ∧
      (fmt.channelDataType = CL_HALF_FLOAT ↔ (emptyImageState false 8 8).useFp16 = true) ∧
      (fmt.channelDataType = CL_FLOAT ↔ (emptyImageState false 8 8).useFp16 = false) ∧
      idesc.imageType = CL_MEM_OBJECT_IMAGE2D ∧
      idesc.imageWidth = (3 : Int).toNat ∧ idesc.imageHeight = (2 : Int).toNat ∧
      idesc.imageDepth = 0 ∧ idesc.arraySize = 0 ∧ idesc.rowPitch = 0 ∧
      idesc.slicePitch = 0 ∧ idesc.mipLevels = 0 ∧ idesc.numSamples = 0 ∧
      idesc.buffer = none) ∧
    (∃ fmt idesc,
      (allocImage (emptyImageState true 8 8) ⟨3, 2⟩).state.events =
        (emptyImageState true 8 8).events ++
          [ImgEvent.create CL_MEM_READ_WRITE fmt idesc none] ∧
      fmt.channelOrder = CL_RGBA ∧
      (fmt.channelDataType = CL_HALF_FLOAT ↔ (emptyImageState true 8 8).useFp16 = true) ∧
      (fmt.channelDataType = CL_FLOAT ↔ (emptyImageState true 8 8).useFp16 = false) ∧
      idesc.imageType = CL_MEM_OBJECT_IMAGE2D ∧
      idesc.imageWidth = (3 : Int).toNat ∧ idesc.imageHeight = (2 : Int).toNat ∧
      idesc.imageDepth = 0 ∧ idesc.arraySize = 0 ∧ idesc.rowPitch = 0 ∧
      idesc.slicePitch = 0 ∧ idesc.mipLevels = 0 ∧ idesc.numSamples = 0 ∧
      idesc.buffer = none) :=
  ⟨image_creation_parameters (emptyImageState false 8 8) ⟨3, 2⟩ rfl (by decide) (by decide)
      (by decide) (by decide),
   image_creation_parameters (emptyImageState true 8 8) ⟨3, 2⟩ rfl (by decide) (by decide)
      (by decide) (by decide)⟩

/-- Claim C10: `OpenCLBufferAllocator::Alloc` performs no size
validation.  For every requested size — including 0 — a cache miss
passes the size unchanged to `clCreateBuffer` and returns the fresh
handle; no bound or positivity check precedes the native call. -/
theorem buffer_alloc_no_size_validation :
    ∀ (s : BufferState) (sz : Nat), s.cache sz = [] →
      (allocBuf s sz).2.events = s.events ++ [BufEvent.create CL_MEM_READ_WRITE sz none] ∧
      (allocBuf s sz).1 = s.next := by
  intro s sz hc
  rw [allocBuf_miss hc]
  exact ⟨rfl, rfl⟩

/-- Witness for C10: size 0 on a fresh buffer allocator is passed
straight to the native call. -/
theorem buffer_alloc_no_size_validation_witness :
    (allocBuf emptyBufState 0).2.events =
      emptyBufState.events ++ [BufEvent.create CL_MEM_READ_WRITE 0 none] ∧
    (allocBuf emptyBufState 0).1 = emptyBufState.next :=
  buffer_alloc_no_size_validation emptyBufState 0 rfl

/-- Claim C6, behaviour of the code at the failing input: `Free` on a
handle (7) unknown to the metadata table is silently accepted by the
code — `meta_[p]` default-inserts a metadata record (`{size = 0}` for
buffers, a `{0, 0}` descriptor for images) and the handle is parked on
the free list of that default key — instead of being rejected with an
assertion or error as the specification requires. -/
theorem free_unknown_handle_silently_accepted :
    (freeBuf emptyBufState 7).meta = [(7, 0)] ∧
    (freeBuf emptyBufState 7).cache 0 = [7] ∧
    (freeImage (emptyImageState false 4 4) 7).meta = [(7, { width := 0, height := 0 })] ∧
    (freeImage (emptyImageState false 4 4) 7).cache { width := 0, height := 0 } = [7] := by
  refine ⟨rfl, ?_, rfl, ?_⟩ <;> decide

end OpenCLAlloc
